import Mathlib

/-!
# Reconciliation primitives of the OVN operator

A shallow embedding of `controllers/reconciler_common.go` (error wrapping,
structured logging, `DeleteIfExists`, `CreateOrDelete`) and of the
`EnvDownwardAPI` setter of `pkg/ovncontroller/utils.go`.

Go values are modelled functionally.  A call that mutates its object in place
returns the object's new value; the remote store is a state of an arbitrary
type `σ` threaded through the calls of a `Client σ`; every client call is
appended to a trace and every log line to a capturing log, both kept in the
`World`.  A Go panic is an explicit `Outcome`.
-/

namespace OvnOperator

/-! ## Go errors -/

/-- Reason of an API status error (`metav1.StatusReason`). -/
inductive StatusReason where
  | Unknown
  | NotFound
  | AlreadyExists
  | Conflict
  | Invalid
  | Forbidden
  | InternalError
  deriving DecidableEq, Repr

/-- Go `error` values (never nil; a nilable error is an `Option GoError`):
an API status error returned by the store, a plain error (`errors.New`, or
`fmt.Errorf` without `%w`), and the wrapper built by `fmt.Errorf` with `%w`,
which keeps the whole formatted text and the wrapped error. -/
inductive GoError where
  | StatusError (reason : StatusReason) (message : String)
  | errorString (s : String)
  | wrapError (msg : String) (err : GoError)
  deriving DecidableEq, Repr

/-- The `Error()` method: the text of an error. -/
def GoError.Error : GoError → String
  | .StatusError _ message => message
  | .errorString s => s
  | .wrapError msg _ => msg

/-- The result of `errors.Unwrap`: the wrapped error, nil for an error that wraps nothing. -/
def GoError.Unwrap : GoError → Option GoError
  | .wrapError _ err => some err
  | _ => none

/-- Library function `errors.ReasonForError` of apimachinery: the reason of a status error,
`Unknown` for every other error. -/
def ReasonForError : GoError → StatusReason
  | .StatusError reason _ => reason
  | _ => StatusReason.Unknown

/-- Library function `errors.IsNotFound` of apimachinery. -/
def IsNotFound (err : GoError) : Bool :=
  ReasonForError err == StatusReason.NotFound

/-- Library function `errors.IsInvalid` of apimachinery. -/
def IsInvalid (err : GoError) : Bool :=
  ReasonForError err == StatusReason.Invalid

/-! ## Objects -/

/-- Library type `types.NamespacedName`, the `client.ObjectKey`. -/
structure ObjectKey where
  Namespace : String
  Name : String
  deriving DecidableEq, Repr

/-- Method `NamespacedName.String()`, which is what the `%v` verb prints for a key. -/
def ObjectKey.String (key : ObjectKey) : String :=
  key.Namespace ++ "/" ++ key.Name

/-- The mutable contents of an object: its identity metadata and its body.
For a type that exposes no identity metadata the two metadata fields are unused. -/
structure ObjectContent where
  Namespace : String
  Name : String
  spec : List (String × String)
  deriving DecidableEq, Repr

/-- The dynamic Go type of a `runtime.Object`, fixed for the life of the value:
the name printed by `%T`, whether values of the type implement `metav1.Object`
(that is, whether `meta.Accessor` succeeds on them), and how `%v` prints a value
of the type.  Types for which `meta.Accessor` answers through
`ObjectMetaAccessor` only are not distinguished from those that implement
`metav1.Object` themselves. -/
structure GoType where
  name : String
  implementsObject : Bool
  sprintV : ObjectContent → String

/-- A `runtime.Object`: a dynamic type and the current contents. -/
structure Object where
  goType : GoType
  content : ObjectContent

/-- The verb `%T` applied to an object. -/
def Object.sprintT (obj : Object) : String := obj.goType.name

/-- The verb `%v` applied to an object. -/
def Object.sprintV (obj : Object) : String := obj.goType.sprintV obj.content

/-- Method `GetNamespace()` of the object's accessor. -/
def Object.GetNamespace (obj : Object) : String := obj.content.Namespace

/-- Method `GetName()` of the object's accessor. -/
def Object.GetName (obj : Object) : String := obj.content.Name

/-- The error `errNotObject` of apimachinery's `meta` package. -/
def errNotObject : GoError :=
  GoError.errorString "object does not implement the Object interfaces"

/-- Library function `meta.Accessor`: the metadata accessor of an object, an alias of the object
itself, or `errNotObject` when the object's type exposes no identity metadata. -/
def Accessor (obj : Object) : Except GoError Object :=
  if obj.goType.implementsObject then Except.ok obj else Except.error errNotObject

/-- Library function `client.ObjectKeyFromObject` in the two-result form the source uses. -/
def ObjectKeyFromObject (obj : Object) : Except GoError ObjectKey :=
  match Accessor obj with
  | Except.error err => Except.error err
  | Except.ok accessor =>
      Except.ok { Namespace := accessor.GetNamespace, Name := accessor.GetName }

/-! ## The store client, the logger and the world -/

/-- One call made on the store client. -/
inductive StoreCall where
  | Get (key : ObjectKey)
  | Create (content : ObjectContent)
  | Update (content : ObjectContent)
  | Delete (content : ObjectContent)
  deriving DecidableEq, Repr

/-- One line received by the logger: `Info(msg, keysAndValues...)` or
`Error(err, msg, keysAndValues...)`. -/
inductive LogEntry where
  | Info (msg : String) (keysAndValues : List String)
  | Error (err : GoError) (msg : String) (keysAndValues : List String)
  deriving DecidableEq, Repr

/-- The `client.Client` capability over a store of type `σ`.  Every method
answers with a nilable error and the next store; `Get`, `Create` and `Update`
also answer with the contents they leave in the caller's object. -/
structure Client (σ : Type) where
  Get : ObjectKey → Object → σ → (Option GoError × ObjectContent) × σ
  Create : Object → σ → (Option GoError × ObjectContent) × σ
  Update : Object → σ → (Option GoError × ObjectContent) × σ
  Delete : Object → σ → Option GoError × σ

/-- The `ReconcilerCommon` interface.  `GetLogger()` is the capturing logger
whose lines are the `logs` of the `World`. -/
structure ReconcilerCommon (σ : Type) where
  GetClient : Client σ

/-- Everything a primitive can affect: the store, the trace of client calls
made so far and the log lines emitted so far. -/
structure World (σ : Type) where
  store : σ
  calls : List StoreCall
  logs : List LogEntry

/-- How a Go call ends: it returns a value or it panics with a value. -/
inductive Outcome (α : Type) where
  | returned (val : α)
  | panicked (v : GoError)
  deriving DecidableEq, Repr

/-- The end of a call on an object: how it ended, the object as the call left
it, and the world afterwards. -/
structure Run (σ : Type) (α : Type) where
  outcome : Outcome α
  obj : Object
  world : World σ

/-- The call `c.Get(ctx, key, obj)`, recorded in the trace. -/
def clientGet {σ : Type} (c : Client σ) (key : ObjectKey) (obj : Object) (w : World σ) :
    Option GoError × Object × World σ :=
  let r := c.Get key obj w.store
  (r.1.1, { obj with content := r.1.2 },
    { w with store := r.2, calls := w.calls ++ [StoreCall.Get key] })

/-- The call `c.Create(ctx, obj)`, recorded in the trace. -/
def clientCreate {σ : Type} (c : Client σ) (obj : Object) (w : World σ) :
    Option GoError × Object × World σ :=
  let r := c.Create obj w.store
  (r.1.1, { obj with content := r.1.2 },
    { w with store := r.2, calls := w.calls ++ [StoreCall.Create obj.content] })

/-- The call `c.Update(ctx, obj)`, recorded in the trace. -/
def clientUpdate {σ : Type} (c : Client σ) (obj : Object) (w : World σ) :
    Option GoError × Object × World σ :=
  let r := c.Update obj w.store
  (r.1.1, { obj with content := r.1.2 },
    { w with store := r.2, calls := w.calls ++ [StoreCall.Update obj.content] })

/-- The call `c.Delete(ctx, obj)`, recorded in the trace. -/
def clientDelete {σ : Type} (c : Client σ) (obj : Object) (w : World σ) :
    Option GoError × World σ :=
  let r := c.Delete obj w.store
  (r.1, { w with store := r.2, calls := w.calls ++ [StoreCall.Delete obj.content] })

/-! ## controllerutil.CreateOrUpdate -/

/-- Library type `controllerutil.OperationResult`, a Go string type. -/
abbrev OperationResult := String

/-- Constant `controllerutil.OperationResultNone`. -/
def OperationResultNone : OperationResult := "unchanged"

/-- Constant `controllerutil.OperationResultCreated`. -/
def OperationResultCreated : OperationResult := "created"

/-- Constant `controllerutil.OperationResultUpdated`. -/
def OperationResultUpdated : OperationResult := "updated"

/-- Library type `controllerutil.MutateFn`: the caller's closure, which edits the object in
place and may fail.  It answers with the edited contents and a nilable error. -/
abbrev MutateFn := ObjectContent → ObjectContent × Option GoError

/-- The error of `mutate` for a closure that changed the object key. -/
def errMutateKey : GoError :=
  GoError.errorString "MutateFn cannot mutate object name and/or object namespace"

/-- The helper `mutate` of controllerutil: run the closure, then refuse a
changed object key. -/
def mutate (f : MutateFn) (key : ObjectKey) (obj : Object) : Option GoError × Object :=
  let r := f obj.content
  let obj1 : Object := { obj with content := r.1 }
  match r.2 with
  | some err => (some err, obj1)
  | none =>
      match ObjectKeyFromObject obj1 with
      | Except.error _ => (some errMutateKey, obj1)
      | Except.ok newKey => if key ≠ newKey then (some errMutateKey, obj1) else (none, obj1)

/-- Library function `controllerutil.CreateOrUpdate`, the upsert: get the object; when it is
absent, mutate and create; when it is present, mutate the fetched copy and
update only if the mutation changed it.  Every failing path answers
`OperationResultNone` with the error. -/
def CreateOrUpdate {σ : Type} (c : Client σ) (obj : Object) (f : MutateFn) (w : World σ) :
    (OperationResult × Option GoError) × Object × World σ :=
  match ObjectKeyFromObject obj with
  | Except.error err => ((OperationResultNone, some err), obj, w)
  | Except.ok key =>
      let g := clientGet c key obj w
      match g.1 with
      | some err =>
          if !IsNotFound err then ((OperationResultNone, some err), g.2.1, g.2.2)
          else
            let m := mutate f key g.2.1
            match m.1 with
            | some err => ((OperationResultNone, some err), m.2, g.2.2)
            | none =>
                let cr := clientCreate c m.2 g.2.2
                match cr.1 with
                | some err => ((OperationResultNone, some err), cr.2.1, cr.2.2)
                | none => ((OperationResultCreated, none), cr.2.1, cr.2.2)
      | none =>
          let existing := g.2.1.content
          let m := mutate f key g.2.1
          match m.1 with
          | some err => ((OperationResultNone, some err), m.2, g.2.2)
          | none =>
              if existing = m.2.content then ((OperationResultNone, none), m.2, g.2.2)
              else
                let u := clientUpdate c m.2 g.2.2
                match u.1 with
                | some err => ((OperationResultNone, some err), u.2.1, u.2.2)
                | none => ((OperationResultUpdated, none), u.2.1, u.2.2)

/-! ## controllers/reconciler_common.go -/

/-- Function `WrapErrorForObject`: an error chaining the operation name, the object's
type, its key and the cause; when the key does not resolve, an error wrapping
the resolution error instead. -/
def WrapErrorForObject (msg : String) (object : Object) (err : GoError) : GoError :=
  match ObjectKeyFromObject object with
  | Except.error keyErr =>
      GoError.wrapError ("ObjectKeyFromObject " ++ object.sprintV ++ ": " ++ keyErr.Error) keyErr
  | Except.ok key =>
      GoError.wrapError
        (msg ++ " " ++ object.sprintT ++ " " ++ key.String ++ ": " ++ err.Error) err

/-- Function `logObjectParams`: the key/value list describing an object. -/
def logObjectParams (object : Object) : List String :=
  ["ObjectType", object.sprintT,
   "ObjectNamespace", object.GetNamespace,
   "ObjectName", object.GetName]

/-- Function `LogForObject`: one info line with the caller's params followed by the
object's params. -/
def LogForObject {σ : Type} (msg : String) (object : Object) (params : List String)
    (w : World σ) : World σ :=
  { w with logs := w.logs ++ [LogEntry.Info msg (params ++ logObjectParams object)] }

/-- Function `LogErrorForObject`: one error line with the caller's params followed by
the object's params. -/
def LogErrorForObject {σ : Type} (err : GoError) (msg : String) (object : Object)
    (params : List String) (w : World σ) : World σ :=
  { w with logs := w.logs ++ [LogEntry.Error err msg (params ++ logObjectParams object)] }

/-- Function `getAccessorOrDie`: the accessor of the object, or a panic when the
object's type exposes no identity metadata. -/
def getAccessorOrDie (obj : Object) : Outcome Object :=
  match Accessor obj with
  | Except.error err =>
      Outcome.panicked
        (GoError.wrapError
          ("Unable to get accessor for object " ++ obj.sprintV ++ ": " ++ err.Error) err)
  | Except.ok accessor => Outcome.returned accessor

/-- The condition `err != nil && errors.IsInvalid(err)` on a nilable error. -/
def isInvalidError (err : Option GoError) : Bool :=
  match err with
  | some e => IsInvalid e
  | none => false

/-- Function `DeleteIfExists`: resolve the key, get the object, and delete it unless the
get reports not-found. -/
def DeleteIfExists {σ : Type} (r : ReconcilerCommon σ) (obj : Object) (w : World σ) :
    Run σ (Option GoError) :=
  match ObjectKeyFromObject obj with
  | Except.error err =>
      ⟨Outcome.returned (some (WrapErrorForObject "ObjectKeyFromObject" obj err)), obj, w⟩
  | Except.ok key =>
      let g := clientGet r.GetClient key obj w
      match g.1 with
      | some err =>
          if IsNotFound err then ⟨Outcome.returned none, g.2.1, g.2.2⟩
          else ⟨Outcome.returned (some (WrapErrorForObject "Get" g.2.1 err)), g.2.1, g.2.2⟩
      | none =>
          let d := clientDelete r.GetClient g.2.1 g.2.2
          match d.1 with
          | some err =>
              ⟨Outcome.returned (some (WrapErrorForObject "Delete" g.2.1 err)), g.2.1, d.2⟩
          | none =>
              match getAccessorOrDie g.2.1 with
              | Outcome.panicked v => ⟨Outcome.panicked v, g.2.1, d.2⟩
              | Outcome.returned accessor =>
                  ⟨Outcome.returned none, g.2.1, LogForObject "Delete" accessor [] d.2⟩

/-- Function `CreateOrDelete`: upsert the object; when the upsert is rejected as
Invalid, delete the object instead.  The accessor taken on entry aliases the
object, so the line logged after the upsert describes the object as the upsert
left it. -/
def CreateOrDelete {σ : Type} (r : ReconcilerCommon σ) (obj : Object) (f : MutateFn)
    (w : World σ) : Run σ (OperationResult × Option GoError) :=
  match getAccessorOrDie obj with
  | Outcome.panicked v => ⟨Outcome.panicked v, obj, w⟩
  | Outcome.returned _ =>
      let up := CreateOrUpdate r.GetClient obj f w
      let op := up.1.1
      let err := up.1.2
      let obj1 := up.2.1
      if isInvalidError err then
        let d := clientDelete r.GetClient obj1 up.2.2
        match d.1 with
        | some derr =>
            ⟨Outcome.returned (op, some (WrapErrorForObject "Delete" obj1 derr)), obj1, d.2⟩
        | none =>
            match getAccessorOrDie obj1 with
            | Outcome.panicked v => ⟨Outcome.panicked v, obj1, d.2⟩
            | Outcome.returned accessor =>
                ⟨Outcome.returned (OperationResultUpdated, none), obj1,
                  LogForObject "Deleted" accessor [] d.2⟩
      else if op ≠ OperationResultNone then
        ⟨Outcome.returned (op, err), obj1, LogForObject "Updated" obj1 [] up.2.2⟩
      else
        ⟨Outcome.returned (op, err), obj1, up.2.2⟩

/-! ## A store that keeps its contract -/

/-- A store of one kind of object: the body kept under each key, if any. -/
abbrev FakeStore := ObjectKey → Option (List (String × String))

/-- The key under which the store keeps the contents of an object. -/
def keyOf (content : ObjectContent) : ObjectKey :=
  { Namespace := content.Namespace, Name := content.Name }

/-- The error of the store for an absent object. -/
def errStoreNotFound : GoError := GoError.StatusError StatusReason.NotFound "not found"

/-- The error of the store for a create of a present object. -/
def errStoreAlreadyExists : GoError :=
  GoError.StatusError StatusReason.AlreadyExists "already exists"

/-- The error of the store for an update it rejects. -/
def errStoreInvalid : GoError := GoError.StatusError StatusReason.Invalid "field is immutable"

/-- A client of a store that keeps the get/create/update/delete contract and
never fails for an operational reason: get answers not-found for an absent key
and the stored object otherwise; create stores an absent object; update
replaces a present object when the validation rule `accepts old new` allows the
change and rejects it as Invalid otherwise; delete removes a present object. -/
def fakeClient (accepts : List (String × String) → List (String × String) → Bool) :
    Client FakeStore where
  Get := fun key obj s =>
    match s key with
    | none => ((some errStoreNotFound, obj.content), s)
    | some body =>
        ((none, { Namespace := key.Namespace, Name := key.Name, spec := body }), s)
  Create := fun obj s =>
    match s (keyOf obj.content) with
    | some _ => ((some errStoreAlreadyExists, obj.content), s)
    | none => ((none, obj.content), Function.update s (keyOf obj.content) (some obj.content.spec))
  Update := fun obj s =>
    match s (keyOf obj.content) with
    | none => ((some errStoreNotFound, obj.content), s)
    | some old =>
        if accepts old obj.content.spec then
          ((none, obj.content), Function.update s (keyOf obj.content) (some obj.content.spec))
        else ((some errStoreInvalid, obj.content), s)
  Delete := fun obj s =>
    match s (keyOf obj.content) with
    | none => (some errStoreNotFound, s)
    | some _ => (none, Function.update s (keyOf obj.content) none)

/-- A reconciler over the contract-keeping store. -/
def fakeReconciler (accepts : List (String × String) → List (String × String) → Bool) :
    ReconcilerCommon FakeStore :=
  { GetClient := fakeClient accepts }

/-- The state reached by `n` consecutive `CreateOrDelete` calls on the same
object, each call starting from the object and the world the previous one left. -/
def repeatCreateOrDelete {σ : Type} (r : ReconcilerCommon σ) (f : MutateFn) :
    Nat → Object → World σ → Object × World σ
  | 0, obj, w => (obj, w)
  | n + 1, obj, w =>
      let res := CreateOrDelete r obj f w
      repeatCreateOrDelete r f n res.obj res.world

/-- A mutation is idempotent when applying it to an object it has produced
succeeds and changes nothing. -/
def IdempotentMutation (f : MutateFn) : Prop :=
  ∀ c c1, f c = (c1, none) → f c1 = (c1, none)

/-- The number of delete calls in a trace. -/
def deleteCount (calls : List StoreCall) : Nat :=
  (calls.filter (fun c => match c with
    | StoreCall.Delete _ => true
    | _ => false)).length

/-- The number of write calls (create, update, delete) in a trace. -/
def writeCount (calls : List StoreCall) : Nat :=
  (calls.filter (fun c => match c with
    | StoreCall.Get _ => false
    | _ => true)).length

/-- The keys of a key/value list: its entries at the even positions. -/
def keysOf : List String → List String
  | k :: _ :: rest => k :: keysOf rest
  | [k] => [k]
  | [] => []

/-! ## pkg/ovncontroller/utils.go -/

/-- The struct `corev1.ObjectFieldSelector`. -/
structure ObjectFieldSelector where
  APIVersion : String
  FieldPath : String
  deriving DecidableEq, Repr

/-- The struct `corev1.ResourceFieldSelector`. -/
structure ResourceFieldSelector where
  ContainerName : String
  Resource : String
  Divisor : String
  deriving DecidableEq, Repr

/-- The struct `corev1.ConfigMapKeySelector`. -/
structure ConfigMapKeySelector where
  Name : String
  Key : String
  Optional : Option Bool
  deriving DecidableEq, Repr

/-- The struct `corev1.SecretKeySelector`. -/
structure SecretKeySelector where
  Name : String
  Key : String
  Optional : Option Bool
  deriving DecidableEq, Repr

/-- The struct `corev1.EnvVarSource`; every source is a nilable pointer. -/
structure EnvVarSource where
  FieldRef : Option ObjectFieldSelector
  ResourceFieldRef : Option ResourceFieldSelector
  ConfigMapKeyRef : Option ConfigMapKeySelector
  SecretKeyRef : Option SecretKeySelector
  deriving DecidableEq, Repr

/-- The struct `corev1.EnvVar`. -/
structure EnvVar where
  Name : String
  Value : String
  ValueFrom : Option EnvVarSource
  deriving DecidableEq, Repr

/-- The setter returned by `EnvDownwardAPI(field)`: allocate `ValueFrom` and its
`FieldRef` when nil, clear `Value`, and point `FieldRef.FieldPath` at `field`. -/
def EnvDownwardAPI (field : String) (env : EnvVar) : EnvVar :=
  let valueFrom : EnvVarSource :=
    match env.ValueFrom with
    | none =>
        { FieldRef := none, ResourceFieldRef := none, ConfigMapKeyRef := none,
          SecretKeyRef := none }
    | some vf => vf
  let fieldRef : ObjectFieldSelector :=
    match valueFrom.FieldRef with
    | none => { APIVersion := "", FieldPath := "" }
    | some fr => fr
  { env with
    Value := "",
    ValueFrom := some { valueFrom with FieldRef := some { fieldRef with FieldPath := field } } }

/-! ## Inputs used by the examples -/

/-- A type with identity metadata. -/
def configMapType : GoType :=
  { name := "*v1.ConfigMap", implementsObject := true,
    sprintV := fun c => "&\x7b" ++ c.Namespace ++ " " ++ c.Name ++ "\x7d" }

/-- A type without identity metadata. -/
def statusType : GoType :=
  { name := "*v1.Status", implementsObject := false, sprintV := fun _ => "&\x7b\x7d" }

/-- An object with identity metadata. -/
def configMap : Object :=
  { goType := configMapType,
    content := { Namespace := "openstack", Name := "ovn", spec := [("selector", "a")] } }

/-- An object whose type exposes no identity metadata. -/
def statusObject : Object :=
  { goType := statusType, content := { Namespace := "", Name := "", spec := [] } }

/-- A validation rule under which the entry `selector` is immutable. -/
def selectorImmutable (old new : List (String × String)) : Bool :=
  old.lookup "selector" == new.lookup "selector"

/-- The empty store. -/
def emptyStore : FakeStore := fun _ => none

/-- A store that holds `configMap`. -/
def storeWithConfigMap : FakeStore :=
  fun key => if key = { Namespace := "openstack", Name := "ovn" } then some [("selector", "a")] else none

/-- A world over `storeWithConfigMap` in which nothing has happened yet. -/
def worldWithConfigMap : World FakeStore :=
  { store := storeWithConfigMap, calls := [], logs := [] }

/-- A world over the empty store in which nothing has happened yet. -/
def emptyWorld : World FakeStore :=
  { store := emptyStore, calls := [], logs := [] }

/-- An idempotent mutation that sets the immutable entry to a new value. -/
def setSelectorB : MutateFn :=
  fun c => ({ c with spec := [("selector", "b")] }, none)

/-- An idempotent mutation that sets a mutable entry. -/
def setMtu : MutateFn :=
  fun c => ({ c with spec := [("selector", "a"), ("mtu", "1500")] }, none)

/-- The error of the failing store. -/
def errInternal : GoError :=
  GoError.StatusError StatusReason.InternalError "etcdserver: request timed out"

/-- A client of a store whose every call fails with an internal server error. -/
def failingClient : Client Unit where
  Get := fun _ obj s => ((some errInternal, obj.content), s)
  Create := fun obj s => ((some errInternal, obj.content), s)
  Update := fun obj s => ((some errInternal, obj.content), s)
  Delete := fun _ s => (some errInternal, s)

/-- A world over the failing store in which nothing has happened yet. -/
def failingWorld : World Unit :=
  { store := (), calls := [], logs := [] }

/-- An environment variable with a literal value and no source. -/
def podIPEnv : EnvVar :=
  { Name := "POD_IP", Value := "10.0.0.1", ValueFrom := none }

/-! ## Basic facts -/

theorem Accessor_of_implements (obj : Object) (h : obj.goType.implementsObject = true) :
    Accessor obj = Except.ok obj := by
  simp [Accessor, h]

theorem Accessor_of_not_implements (obj : Object) (h : obj.goType.implementsObject = false) :
    Accessor obj = Except.error errNotObject := by
  simp [Accessor, h]

theorem ObjectKeyFromObject_of_implements (obj : Object)
    (h : obj.goType.implementsObject = true) :
    ObjectKeyFromObject obj = Except.ok (keyOf obj.content) := by
  simp [ObjectKeyFromObject, Accessor_of_implements obj h, keyOf, Object.GetNamespace,
    Object.GetName]

theorem ObjectKeyFromObject_of_not_implements (obj : Object)
    (h : obj.goType.implementsObject = false) :
    ObjectKeyFromObject obj = Except.error errNotObject := by
  simp [ObjectKeyFromObject, Accessor_of_not_implements obj h]

theorem getAccessorOrDie_of_implements (obj : Object)
    (h : obj.goType.implementsObject = true) :
    getAccessorOrDie obj = Outcome.returned obj := by
  simp [getAccessorOrDie, Accessor_of_implements obj h]

theorem getAccessorOrDie_of_not_implements (obj : Object)
    (h : obj.goType.implementsObject = false) :
    ∃ v, getAccessorOrDie obj = Outcome.panicked v := by
  simp [getAccessorOrDie, Accessor_of_not_implements obj h]

theorem wrapError_ne (msg : String) (err : GoError) : GoError.wrapError msg err ≠ err := by
  intro h
  have hs := congrArg sizeOf h
  simp at hs

/-! ## WrapErrorForObject -/

/-- C9: when the object's key resolves, `WrapErrorForObject msg object err` is a
new error whose text is `msg`, the object's type, the key and the text of `err`,
in that order, and whose unwrapping is `err`; when the key does not resolve, it
is an error whose text reports the resolution failure and whose unwrapping is
the resolution error. -/
theorem WrapErrorForObject_chain (msg : String) (object : Object) (err : GoError) :
    match ObjectKeyFromObject object with
    | Except.ok key =>
        (WrapErrorForObject msg object err).Error
            = msg ++ " " ++ object.sprintT ++ " " ++ key.String ++ ": " ++ err.Error ∧
          (WrapErrorForObject msg object err).Unwrap = some err ∧
          WrapErrorForObject msg object err ≠ err
    | Except.error keyErr =>
        (WrapErrorForObject msg object err).Error
            = "ObjectKeyFromObject " ++ object.sprintV ++ ": " ++ keyErr.Error ∧
          (WrapErrorForObject msg object err).Unwrap = some keyErr := by
  cases h : ObjectKeyFromObject object with
  | ok key =>
      simp only [WrapErrorForObject, h, GoError.Error, GoError.Unwrap]
      exact ⟨trivial, trivial, wrapError_ne _ _⟩
  | error keyErr =>
      simp only [WrapErrorForObject, h, GoError.Error, GoError.Unwrap]
      exact ⟨trivial, trivial⟩

/-! ## EnvDownwardAPI -/

/-- C10: the setter `EnvDownwardAPI field` leaves `Value` empty and
`ValueFrom.FieldRef.FieldPath` equal to `field`, also when `ValueFrom` or its
`FieldRef` was nil; `Name`, the `APIVersion` of the field reference (empty for a
fresh one) and the other sources of `ValueFrom` are as before; and applying the
setter a second time changes nothing. -/
theorem EnvDownwardAPI_frame (field : String) (e : EnvVar) :
    (EnvDownwardAPI field e).Value = "" ∧
    (EnvDownwardAPI field e).Name = e.Name ∧
    (∃ vf fr, (EnvDownwardAPI field e).ValueFrom = some vf ∧ vf.FieldRef = some fr ∧
      fr.FieldPath = field ∧
      fr.APIVersion = ((e.ValueFrom.bind (fun v => v.FieldRef)).map (fun r => r.APIVersion)).getD "" ∧
      vf.ResourceFieldRef = e.ValueFrom.bind (fun v => v.ResourceFieldRef) ∧
      vf.ConfigMapKeyRef = e.ValueFrom.bind (fun v => v.ConfigMapKeyRef) ∧
      vf.SecretKeyRef = e.ValueFrom.bind (fun v => v.SecretKeyRef)) ∧
    EnvDownwardAPI field (EnvDownwardAPI field e) = EnvDownwardAPI field e := by
  rcases e with ⟨name, value, _ | ⟨_ | fr, rf, cm, sk⟩⟩ <;> simp [EnvDownwardAPI]

/-! ## Identity failure -/

/-- C3 (as stated, refuted): for an object whose type exposes no identity
metadata `DeleteIfExists` does not panic; it returns an error value. -/
theorem DeleteIfExists_identity_failure_returns :
    statusObject.goType.implementsObject = false ∧
    ¬ ∃ v, (DeleteIfExists (fakeReconciler selectorImmutable) statusObject emptyWorld).outcome
        = Outcome.panicked v := by
  refine ⟨rfl, ?_⟩
  rintro ⟨v, hv⟩
  have h : (DeleteIfExists (fakeReconciler selectorImmutable) statusObject emptyWorld).outcome
      = Outcome.returned (some (WrapErrorForObject "ObjectKeyFromObject" statusObject errNotObject)) := rfl
  rw [h] at hv
  cases hv

/-- C3 (amended): for an object whose type exposes no identity metadata,
`CreateOrDelete` panics and `DeleteIfExists` returns a non-nil error that wraps
the resolution error; neither makes a store call nor logs a line. -/
theorem identity_failure_outcomes {σ : Type} (r : ReconcilerCommon σ) (obj : Object)
    (f : MutateFn) (w : World σ) (h : obj.goType.implementsObject = false) :
    (∃ v, (CreateOrDelete r obj f w).outcome = Outcome.panicked v) ∧
    (CreateOrDelete r obj f w).world = w ∧
    (∃ e, (DeleteIfExists r obj w).outcome = Outcome.returned (some e) ∧
      e.Unwrap = some errNotObject) ∧
    (DeleteIfExists r obj w).world = w := by
  obtain ⟨v, hv⟩ := getAccessorOrDie_of_not_implements obj h
  have hk := ObjectKeyFromObject_of_not_implements obj h
  refine ⟨⟨v, ?_⟩, ?_,
    ⟨WrapErrorForObject "ObjectKeyFromObject" obj errNotObject, ?_, ?_⟩, ?_⟩
  · simp [CreateOrDelete, hv]
  · simp [CreateOrDelete, hv]
  · simp only [DeleteIfExists, hk]
  · simp [WrapErrorForObject, hk, GoError.Unwrap]
  · simp [DeleteIfExists, hk]

/-- Witness for C3 (amended): an object of a type without identity metadata, over the
empty store. -/
theorem identity_failure_outcomes_witness :
    statusObject.goType.implementsObject = false ∧
    ((∃ v, (CreateOrDelete (fakeReconciler selectorImmutable) statusObject setMtu
        emptyWorld).outcome = Outcome.panicked v) ∧
      (CreateOrDelete (fakeReconciler selectorImmutable) statusObject setMtu emptyWorld).world
        = emptyWorld ∧
      (∃ e, (DeleteIfExists (fakeReconciler selectorImmutable) statusObject emptyWorld).outcome
          = Outcome.returned (some e) ∧ e.Unwrap = some errNotObject) ∧
      (DeleteIfExists (fakeReconciler selectorImmutable) statusObject emptyWorld).world
        = emptyWorld) :=
  ⟨rfl, identity_failure_outcomes (fakeReconciler selectorImmutable) statusObject setMtu
    emptyWorld rfl⟩

/-! ## DeleteIfExists -/

/-- C4: the deletion protocol of `DeleteIfExists`.  When the key does not
resolve, a non-nil error is returned and the world is untouched.  Otherwise one
get is issued; on not-found nil is returned with no delete and no log line; on
another get failure a non-nil error wrapping it is returned with no delete and
no log line; otherwise one delete is issued, and the call returns a non-nil
error wrapping the delete failure with no log line, or nil after one `Delete`
log line. -/
theorem DeleteIfExists_protocol {σ : Type} (r : ReconcilerCommon σ) (obj : Object)
    (w : World σ) :
    match ObjectKeyFromObject obj with
    | Except.error _ =>
        (∃ e, (DeleteIfExists r obj w).outcome = Outcome.returned (some e)) ∧
          (DeleteIfExists r obj w).world = w
    | Except.ok key =>
        match (r.GetClient.Get key obj w.store).1.1 with
        | some getErr =>
            (if IsNotFound getErr then
                (DeleteIfExists r obj w).outcome = Outcome.returned none
              else
                ∃ e, (DeleteIfExists r obj w).outcome = Outcome.returned (some e) ∧
                  e.Unwrap = some getErr) ∧
              (DeleteIfExists r obj w).world
                = { store := (r.GetClient.Get key obj w.store).2,
                    calls := w.calls ++ [StoreCall.Get key],
                    logs := w.logs }
        | none =>
            match (r.GetClient.Delete
                { obj with content := (r.GetClient.Get key obj w.store).1.2 }
                (r.GetClient.Get key obj w.store).2).1 with
            | some delErr =>
                (∃ e, (DeleteIfExists r obj w).outcome = Outcome.returned (some e) ∧
                    e.Unwrap = some delErr) ∧
                  (DeleteIfExists r obj w).world
                    = { store := (r.GetClient.Delete
                          { obj with content := (r.GetClient.Get key obj w.store).1.2 }
                          (r.GetClient.Get key obj w.store).2).2,
                        calls := w.calls ++ [StoreCall.Get key,
                          StoreCall.Delete (r.GetClient.Get key obj w.store).1.2],
                        logs := w.logs }
            | none =>
                (DeleteIfExists r obj w).outcome = Outcome.returned none ∧
                  (DeleteIfExists r obj w).world
                    = { store := (r.GetClient.Delete
                          { obj with content := (r.GetClient.Get key obj w.store).1.2 }
                          (r.GetClient.Get key obj w.store).2).2,
                        calls := w.calls ++ [StoreCall.Get key,
                          StoreCall.Delete (r.GetClient.Get key obj w.store).1.2],
                        logs := w.logs ++ [LogEntry.Info "Delete"
                          (logObjectParams
                            { obj with content := (r.GetClient.Get key obj w.store).1.2 })] } := by
  cases hi : obj.goType.implementsObject with
  | false =>
      have hk := ObjectKeyFromObject_of_not_implements obj hi
      simp [DeleteIfExists, hk]
  | true =>
      have hk := ObjectKeyFromObject_of_implements obj hi
      simp only [hk]
      have hi1 : ({ obj with content := (r.GetClient.Get (keyOf obj.content) obj
          w.store).1.2 } : Object).goType.implementsObject = true := hi
      cases hg : (r.GetClient.Get (keyOf obj.content) obj w.store).1.1 with
      | some getErr =>
          by_cases hnf : IsNotFound getErr = true
          · simp [DeleteIfExists, hk, clientGet, hg, hnf]
          · simp [DeleteIfExists, hk, clientGet, hg, hnf, WrapErrorForObject,
              ObjectKeyFromObject_of_implements _ hi1, GoError.Unwrap]
      | none =>
          cases hd : (r.GetClient.Delete
              { obj with content := (r.GetClient.Get (keyOf obj.content) obj w.store).1.2 }
              (r.GetClient.Get (keyOf obj.content) obj w.store).2).1 with
          | some delErr =>
              simp [DeleteIfExists, hk, clientGet, hg, clientDelete, hd, WrapErrorForObject,
                ObjectKeyFromObject_of_implements _ hi1, GoError.Unwrap]
          | none =>
              simp [DeleteIfExists, hk, clientGet, hg, clientDelete, hd,
                getAccessorOrDie_of_implements _ hi1, LogForObject]

/-! ## CreateOrDelete -/

theorem deleteCount_append (a b : List StoreCall) :
    deleteCount (a ++ b) = deleteCount a + deleteCount b := by
  simp [deleteCount, List.filter_append]

theorem mutate_goType (f : MutateFn) (key : ObjectKey) (obj : Object) :
    (mutate f key obj).2.goType = obj.goType := by
  unfold mutate
  simp only
  split
  · rfl
  · split
    · rfl
    · split <;> rfl

theorem CreateOrUpdate_frame {σ : Type} (c : Client σ) (obj : Object) (f : MutateFn)
    (w : World σ) :
    (CreateOrUpdate c obj f w).2.1.goType = obj.goType ∧
    (CreateOrUpdate c obj f w).2.2.logs = w.logs ∧
    (∃ ext, (CreateOrUpdate c obj f w).2.2.calls = w.calls ++ ext ∧ deleteCount ext = 0) ∧
    ((CreateOrUpdate c obj f w).1.2 ≠ none →
      (CreateOrUpdate c obj f w).1.1 = OperationResultNone) := by
  unfold CreateOrUpdate
  simp only
  split
  · exact ⟨rfl, rfl, ⟨[], by simp, rfl⟩, fun _ => rfl⟩
  · rename_i key hk
    split
    · split
      · exact ⟨rfl, rfl, ⟨[StoreCall.Get key], rfl, rfl⟩, fun _ => rfl⟩
      · split
        · exact ⟨mutate_goType _ _ _, rfl, ⟨[StoreCall.Get key], rfl, rfl⟩, fun _ => rfl⟩
        · split
          · refine ⟨mutate_goType _ _ _, rfl, ⟨[StoreCall.Get key, StoreCall.Create (mutate f key (clientGet c key obj w).2.1).2.content], ?_, rfl⟩, fun _ => rfl⟩
            simp [clientCreate, clientGet]
          · refine ⟨mutate_goType _ _ _, rfl, ⟨[StoreCall.Get key, StoreCall.Create (mutate f key (clientGet c key obj w).2.1).2.content], ?_, rfl⟩, fun h => absurd rfl h⟩
            simp [clientCreate, clientGet]
    · split
      · exact ⟨mutate_goType _ _ _, rfl, ⟨[StoreCall.Get key], rfl, rfl⟩, fun _ => rfl⟩
      · split
        · exact ⟨mutate_goType _ _ _, rfl, ⟨[StoreCall.Get key], rfl, rfl⟩, fun _ => rfl⟩
        · split
          · refine ⟨mutate_goType _ _ _, rfl, ⟨[StoreCall.Get key, StoreCall.Update (mutate f key (clientGet c key obj w).2.1).2.content], ?_, rfl⟩, fun _ => rfl⟩
            simp [clientUpdate, clientGet]
          · refine ⟨mutate_goType _ _ _, rfl, ⟨[StoreCall.Get key, StoreCall.Update (mutate f key (clientGet c key obj w).2.1).2.content], ?_, rfl⟩, fun h => absurd rfl h⟩
            simp [clientUpdate, clientGet]

theorem CreateOrUpdate_of_not_implements {σ : Type} (c : Client σ) (obj : Object)
    (f : MutateFn) (w : World σ) (h : obj.goType.implementsObject = false) :
    CreateOrUpdate c obj f w = ((OperationResultNone, some errNotObject), obj, w) := by
  simp [CreateOrUpdate, ObjectKeyFromObject_of_not_implements obj h]

theorem implements_of_isInvalidError {σ : Type} (c : Client σ) (obj : Object)
    (f : MutateFn) (w : World σ)
    (h : isInvalidError (CreateOrUpdate c obj f w).1.2 = true) :
    obj.goType.implementsObject = true := by
  cases hi : obj.goType.implementsObject with
  | true => rfl
  | false =>
      rw [CreateOrUpdate_of_not_implements c obj f w hi] at h
      simp [isInvalidError, IsInvalid, ReasonForError, errNotObject] at h

/-- C5: the client calls that `CreateOrDelete` adds to the trace contain exactly
one delete when the upsert returned an Invalid-class error and no delete
otherwise, so a call whose upsert succeeds or fails with any other error never
deletes the object. -/
theorem CreateOrDelete_deletes_iff_invalid {σ : Type} (r : ReconcilerCommon σ)
    (obj : Object) (f : MutateFn) (w : World σ) :
    ∃ ext, (CreateOrDelete r obj f w).world.calls = w.calls ++ ext ∧
      deleteCount ext
        = if isInvalidError (CreateOrUpdate r.GetClient obj f w).1.2 then 1 else 0 := by
  obtain ⟨hty, -, ⟨ext, hext, hcount⟩, -⟩ := CreateOrUpdate_frame r.GetClient obj f w
  cases hi : obj.goType.implementsObject with
  | false =>
      obtain ⟨v, hv⟩ := getAccessorOrDie_of_not_implements obj hi
      refine ⟨[], by simp [CreateOrDelete, hv], ?_⟩
      rw [CreateOrUpdate_of_not_implements r.GetClient obj f w hi]
      simp [isInvalidError, IsInvalid, ReasonForError, errNotObject, deleteCount]
  | true =>
      have hi1 : (CreateOrUpdate r.GetClient obj f w).2.1.goType.implementsObject = true := by
        rw [hty]; exact hi
      by_cases hinv : isInvalidError (CreateOrUpdate r.GetClient obj f w).1.2 = true
      · refine ⟨ext ++ [StoreCall.Delete (CreateOrUpdate r.GetClient obj f w).2.1.content], ?_, ?_⟩
        · simp only [CreateOrDelete, getAccessorOrDie_of_implements obj hi, hinv, if_true,
            getAccessorOrDie_of_implements _ hi1]
          split <;> simp [clientDelete, LogForObject, hext]
        · rw [deleteCount_append, hcount]
          simp [hinv, deleteCount]
      · have hinv1 : isInvalidError (CreateOrUpdate r.GetClient obj f w).1.2 = false := by
          simpa using hinv
        refine ⟨ext, ?_, by simp [hinv1, hcount]⟩
        simp only [CreateOrDelete, getAccessorOrDie_of_implements obj hi, hinv1,
          Bool.false_eq_true, if_false]
        split <;> simp [LogForObject, hext]

/-- C1 (as stated, refuted): on the Invalid path with a successful delete the
result of `CreateOrDelete` is `OperationResultUpdated`, not a fourth result
distinct from unchanged, created and updated. -/
theorem CreateOrDelete_invalid_result_is_updated :
    isInvalidError (CreateOrUpdate (fakeClient selectorImmutable) configMap setSelectorB
      worldWithConfigMap).1.2 = true ∧
    (CreateOrDelete (fakeReconciler selectorImmutable) configMap setSelectorB
      worldWithConfigMap).world.store { Namespace := "openstack", Name := "ovn" } = none ∧
    (CreateOrDelete (fakeReconciler selectorImmutable) configMap setSelectorB
      worldWithConfigMap).outcome = Outcome.returned (OperationResultUpdated, none) ∧
    ¬ ∃ op, (CreateOrDelete (fakeReconciler selectorImmutable) configMap setSelectorB
        worldWithConfigMap).outcome = Outcome.returned (op, none) ∧
      op ≠ OperationResultNone ∧ op ≠ OperationResultCreated ∧ op ≠ OperationResultUpdated := by
  have h : (CreateOrDelete (fakeReconciler selectorImmutable) configMap setSelectorB
      worldWithConfigMap).outcome = Outcome.returned (OperationResultUpdated, none) := by
    decide
  refine ⟨by decide, by decide, h, ?_⟩
  rintro ⟨op, hop, -, -, hne⟩
  rw [h] at hop
  injection hop with hop
  injection hop with hop
  exact hne hop.symm

/-- C1 (amended): when the upsert fails with an Invalid-class error and the
delete that follows succeeds, `CreateOrDelete` returns `OperationResultUpdated`
with a nil error, having issued exactly one delete, of the object as the upsert
left it, and having logged exactly one line, the info line `Deleted`. -/
theorem CreateOrDelete_invalid_then_deleted {σ : Type} (r : ReconcilerCommon σ)
    (obj : Object) (f : MutateFn) (w : World σ) (e : GoError)
    (hup : (CreateOrUpdate r.GetClient obj f w).1.2 = some e)
    (hinv : IsInvalid e = true)
    (hdel : (r.GetClient.Delete (CreateOrUpdate r.GetClient obj f w).2.1
      (CreateOrUpdate r.GetClient obj f w).2.2.store).1 = none) :
    (CreateOrDelete r obj f w).outcome = Outcome.returned (OperationResultUpdated, none) ∧
    (∃ ext, (CreateOrDelete r obj f w).world.calls = w.calls ++ ext ∧ deleteCount ext = 1 ∧
      StoreCall.Delete (CreateOrUpdate r.GetClient obj f w).2.1.content ∈ ext) ∧
    (CreateOrDelete r obj f w).world.logs
      = w.logs ++ [LogEntry.Info "Deleted"
          (logObjectParams (CreateOrUpdate r.GetClient obj f w).2.1)] ∧
    (CreateOrDelete r obj f w).world.store
      = (r.GetClient.Delete (CreateOrUpdate r.GetClient obj f w).2.1
          (CreateOrUpdate r.GetClient obj f w).2.2.store).2 := by
  have hinv1 : isInvalidError (CreateOrUpdate r.GetClient obj f w).1.2 = true := by
    rw [hup]; exact hinv
  have hi := implements_of_isInvalidError r.GetClient obj f w hinv1
  obtain ⟨hty, hlogs, ⟨ext, hext, hcount⟩, -⟩ := CreateOrUpdate_frame r.GetClient obj f w
  have hi1 : (CreateOrUpdate r.GetClient obj f w).2.1.goType.implementsObject = true := by
    rw [hty]; exact hi
  have hrun : CreateOrDelete r obj f w
      = ⟨Outcome.returned (OperationResultUpdated, none), (CreateOrUpdate r.GetClient obj f w).2.1,
          LogForObject "Deleted" (CreateOrUpdate r.GetClient obj f w).2.1 []
            (clientDelete r.GetClient (CreateOrUpdate r.GetClient obj f w).2.1
              (CreateOrUpdate r.GetClient obj f w).2.2).2⟩ := by
    simp only [CreateOrDelete, getAccessorOrDie_of_implements obj hi, hinv1, if_true,
      getAccessorOrDie_of_implements _ hi1, clientDelete, hdel]
  rw [hrun]
  refine ⟨rfl, ⟨ext ++ [StoreCall.Delete (CreateOrUpdate r.GetClient obj f w).2.1.content],
    ?_, ?_, by simp⟩, ?_, rfl⟩
  · simp [LogForObject, clientDelete, hext]
  · rw [deleteCount_append, hcount]; rfl
  · simp [LogForObject, clientDelete, hlogs]

/-- Witness for C1 (amended): a mutation of the immutable entry of a stored object. -/
theorem CreateOrDelete_invalid_then_deleted_witness :
    (CreateOrUpdate (fakeClient selectorImmutable) configMap setSelectorB
      worldWithConfigMap).1.2 = some errStoreInvalid ∧
    IsInvalid errStoreInvalid = true ∧
    ((fakeClient selectorImmutable).Delete
      (CreateOrUpdate (fakeClient selectorImmutable) configMap setSelectorB
        worldWithConfigMap).2.1
      (CreateOrUpdate (fakeClient selectorImmutable) configMap setSelectorB
        worldWithConfigMap).2.2.store).1 = none ∧
    (CreateOrDelete (fakeReconciler selectorImmutable) configMap setSelectorB
      worldWithConfigMap).outcome = Outcome.returned (OperationResultUpdated, none) ∧
    (CreateOrDelete (fakeReconciler selectorImmutable) configMap setSelectorB
      worldWithConfigMap).world.logs
      = [LogEntry.Info "Deleted"
          ["ObjectType", "*v1.ConfigMap", "ObjectNamespace", "openstack", "ObjectName", "ovn"]] :=
  ⟨by decide, by decide, by decide,
    (CreateOrDelete_invalid_then_deleted (fakeReconciler selectorImmutable) configMap
      setSelectorB worldWithConfigMap errStoreInvalid (by decide) (by decide) (by decide)).1,
    (CreateOrDelete_invalid_then_deleted (fakeReconciler selectorImmutable) configMap
      setSelectorB worldWithConfigMap errStoreInvalid (by decide) (by decide) (by decide)).2.2.1⟩

/-- When the object has identity metadata and the upsert fails with an error that
is not of the Invalid class, `CreateOrDelete` returns the upsert's own result and
error, untouched, and adds nothing to what the upsert did. -/
theorem CreateOrDelete_forwards_upsert_error {σ : Type} (r : ReconcilerCommon σ)
    (obj : Object) (f : MutateFn) (w : World σ) (e : GoError)
    (hi : obj.goType.implementsObject = true)
    (hup : (CreateOrUpdate r.GetClient obj f w).1.2 = some e)
    (hinv : IsInvalid e = false) :
    (CreateOrDelete r obj f w).outcome = Outcome.returned (OperationResultNone, some e) ∧
    (CreateOrDelete r obj f w).world = (CreateOrUpdate r.GetClient obj f w).2.2 := by
  have hinv1 : isInvalidError (CreateOrUpdate r.GetClient obj f w).1.2 = false := by
    rw [hup]; exact hinv
  obtain ⟨-, -, -, hnone⟩ := CreateOrUpdate_frame r.GetClient obj f w
  have hop : (CreateOrUpdate r.GetClient obj f w).1.1 = OperationResultNone :=
    hnone (by rw [hup]; simp)
  have hinv2 : isInvalidError (some e) = false := hinv
  simp [CreateOrDelete, getAccessorOrDie_of_implements obj hi, hinv2, hop, hup]

/-- C2 (the code at the failing input): with a store whose get fails with an
internal server error, the upsert fails with that error, which is not of the
Invalid class, and `CreateOrDelete` returns `OperationResultNone` with that very
error: its text carries no operation name, object type or key, and unwrapping it
yields nil, not the upsert error. -/
theorem CreateOrDelete_upsert_error_not_wrapped :
    (CreateOrUpdate failingClient configMap setMtu failingWorld).1
      = (OperationResultNone, some errInternal) ∧
    IsInvalid errInternal = false ∧
    (CreateOrDelete { GetClient := failingClient } configMap setMtu failingWorld).outcome
      = Outcome.returned (OperationResultNone, some errInternal) ∧
    errInternal.Error = "etcdserver: request timed out" ∧
    errInternal.Unwrap = none ∧
    errInternal.Unwrap ≠ some errInternal := by
  decide

theorem DeleteIfExists_logs {σ : Type} (r : ReconcilerCommon σ) (obj : Object) (w : World σ) :
    (DeleteIfExists r obj w).world.logs = w.logs ∨
    ∃ o, (DeleteIfExists r obj w).world.logs
      = w.logs ++ [LogEntry.Info "Delete" (logObjectParams o)] := by
  unfold DeleteIfExists
  simp only
  split
  · exact Or.inl rfl
  · split
    · split <;> exact Or.inl rfl
    · split
      · exact Or.inl rfl
      · split
        · exact Or.inl rfl
        · exact Or.inr ⟨_, rfl⟩

theorem keysOf_logObjectParams (o : Object) :
    keysOf (logObjectParams o) = ["ObjectType", "ObjectNamespace", "ObjectName"] := rfl

/-- C8 (as stated, refuted): when the upsert creates the object, the info line
that `CreateOrDelete` emits has the message `Updated`, not `Created`. -/
theorem CreateOrDelete_created_logs_updated :
    (CreateOrUpdate (fakeClient selectorImmutable) configMap setMtu emptyWorld).1
      = (OperationResultCreated, none) ∧
    (CreateOrDelete (fakeReconciler selectorImmutable) configMap setMtu emptyWorld).world.logs
      = [LogEntry.Info "Updated"
          ["ObjectType", "*v1.ConfigMap", "ObjectNamespace", "openstack", "ObjectName", "ovn"]] ∧
    ¬ ∃ kv, (CreateOrDelete (fakeReconciler selectorImmutable) configMap setMtu
        emptyWorld).world.logs = [LogEntry.Info "Created" kv] := by
  have h : (CreateOrDelete (fakeReconciler selectorImmutable) configMap setMtu
      emptyWorld).world.logs
      = [LogEntry.Info "Updated"
          ["ObjectType", "*v1.ConfigMap", "ObjectNamespace", "openstack", "ObjectName", "ovn"]] := by
    decide
  refine ⟨by decide, h, ?_⟩
  rintro ⟨kv, hkv⟩
  rw [h] at hkv
  simp at hkv

/-- C8 (amended): when the upsert succeeds with result `op`, `CreateOrDelete`
returns `(op, nil)`; it emits no log line when `op` is unchanged, and otherwise
exactly one info line, whose message is `Updated` whether `op` is created or
updated, and whose key/value list is `ObjectType`, `ObjectNamespace` and
`ObjectName` with the type, namespace and name of the object as the upsert left
it; every line `DeleteIfExists` emits carries the same keys. -/
theorem CreateOrDelete_upsert_success {σ : Type} (r : ReconcilerCommon σ) (obj : Object)
    (f : MutateFn) (w : World σ)
    (hup : (CreateOrUpdate r.GetClient obj f w).1.2 = none) :
    (CreateOrDelete r obj f w).outcome
      = Outcome.returned ((CreateOrUpdate r.GetClient obj f w).1.1, none) ∧
    (CreateOrDelete r obj f w).world.logs
      = (if (CreateOrUpdate r.GetClient obj f w).1.1 = OperationResultNone then w.logs
         else w.logs ++ [LogEntry.Info "Updated"
          ["ObjectType", (CreateOrUpdate r.GetClient obj f w).2.1.sprintT,
           "ObjectNamespace", (CreateOrUpdate r.GetClient obj f w).2.1.GetNamespace,
           "ObjectName", (CreateOrUpdate r.GetClient obj f w).2.1.GetName]]) ∧
    (∀ (r2 : ReconcilerCommon σ) (obj2 : Object) (w2 : World σ),
      ∃ extra, (DeleteIfExists r2 obj2 w2).world.logs = w2.logs ++ extra ∧
        ∀ entry ∈ extra, ∃ msg kv, entry = LogEntry.Info msg kv ∧
          keysOf kv = ["ObjectType", "ObjectNamespace", "ObjectName"]) := by
  have hi : obj.goType.implementsObject = true := by
    cases hi : obj.goType.implementsObject with
    | true => rfl
    | false =>
        rw [CreateOrUpdate_of_not_implements r.GetClient obj f w hi] at hup
        simp at hup
  obtain ⟨-, hlogs, -, -⟩ := CreateOrUpdate_frame r.GetClient obj f w
  have hinv : isInvalidError (CreateOrUpdate r.GetClient obj f w).1.2 = false := by
    rw [hup]; rfl
  refine ⟨?_, ?_, ?_⟩
  · simp only [CreateOrDelete, getAccessorOrDie_of_implements obj hi, hinv,
      Bool.false_eq_true, if_false]
    split <;> simp [hup]
  · simp only [CreateOrDelete, getAccessorOrDie_of_implements obj hi, hinv,
      Bool.false_eq_true, if_false]
    by_cases hop : (CreateOrUpdate r.GetClient obj f w).1.1 = OperationResultNone
    · simp [hop, hlogs]
    · simp [hop, hlogs, LogForObject, logObjectParams]
  · intro r2 obj2 w2
    rcases DeleteIfExists_logs r2 obj2 w2 with h | ⟨o, h⟩
    · exact ⟨[], by simp [h], by simp⟩
    · refine ⟨[LogEntry.Info "Delete" (logObjectParams o)], h, ?_⟩
      intro entry hentry
      simp only [List.mem_singleton] at hentry
      exact ⟨"Delete", logObjectParams o, hentry, keysOf_logObjectParams o⟩

/-- Witness for C8 (amended): the upsert creates the object in the empty store. -/
theorem CreateOrDelete_upsert_success_witness :
    (CreateOrUpdate (fakeClient selectorImmutable) configMap setMtu emptyWorld).1.2 = none ∧
    (CreateOrDelete (fakeReconciler selectorImmutable) configMap setMtu emptyWorld).outcome
      = Outcome.returned (OperationResultCreated, none) ∧
    (CreateOrDelete (fakeReconciler selectorImmutable) configMap setMtu emptyWorld).world.logs
      = [LogEntry.Info "Updated"
          ["ObjectType", "*v1.ConfigMap", "ObjectNamespace", "openstack", "ObjectName", "ovn"]] :=
  ⟨by decide,
    (CreateOrDelete_upsert_success (fakeReconciler selectorImmutable) configMap setMtu
      emptyWorld (by decide)).1,
    (CreateOrDelete_upsert_success (fakeReconciler selectorImmutable) configMap setMtu
      emptyWorld (by decide)).2.1⟩

/-! ## Repeated calls against a store that keeps its contract -/

/-- C7: when the object has identity metadata and is in the store, two consecutive `DeleteIfExists` calls
both return nil, the object is absent from the store after the first call, and
the second call issues one get, no delete and no log line. -/
theorem DeleteIfExists_twice (accepts : List (String × String) → List (String × String) → Bool)
    (obj : Object) (w : World FakeStore)
    (hi : obj.goType.implementsObject = true)
    (hpresent : w.store (keyOf obj.content) ≠ none) :
    (DeleteIfExists (fakeReconciler accepts) obj w).outcome = Outcome.returned none ∧
    (DeleteIfExists (fakeReconciler accepts) obj w).world.store (keyOf obj.content) = none ∧
    (DeleteIfExists (fakeReconciler accepts) (DeleteIfExists (fakeReconciler accepts) obj w).obj
      (DeleteIfExists (fakeReconciler accepts) obj w).world).outcome = Outcome.returned none ∧
    (DeleteIfExists (fakeReconciler accepts) (DeleteIfExists (fakeReconciler accepts) obj w).obj
      (DeleteIfExists (fakeReconciler accepts) obj w).world).world.calls
      = (DeleteIfExists (fakeReconciler accepts) obj w).world.calls
          ++ [StoreCall.Get (keyOf obj.content)] ∧
    (DeleteIfExists (fakeReconciler accepts) (DeleteIfExists (fakeReconciler accepts) obj w).obj
      (DeleteIfExists (fakeReconciler accepts) obj w).world).world.logs
      = (DeleteIfExists (fakeReconciler accepts) obj w).world.logs := by
  obtain ⟨body, hbody⟩ := Option.ne_none_iff_exists'.mp hpresent
  obtain ⟨ty, ⟨ns, name, spec⟩⟩ := obj
  have hk : ∀ c : ObjectContent, ObjectKeyFromObject { goType := ty, content := c }
      = Except.ok (keyOf c) := fun c => ObjectKeyFromObject_of_implements _ hi
  have hacc : ∀ c : ObjectContent, getAccessorOrDie { goType := ty, content := c }
      = Outcome.returned { goType := ty, content := c } :=
    fun c => getAccessorOrDie_of_implements _ hi
  have hfirst : DeleteIfExists (fakeReconciler accepts)
      { goType := ty, content := { Namespace := ns, Name := name, spec := spec } } w
      = ⟨Outcome.returned none,
          { goType := ty, content := { Namespace := ns, Name := name, spec := body } },
          { store := Function.update w.store { Namespace := ns, Name := name } none,
            calls := w.calls ++ [StoreCall.Get { Namespace := ns, Name := name },
              StoreCall.Delete { Namespace := ns, Name := name, spec := body }],
            logs := w.logs ++ [LogEntry.Info "Delete"
              (logObjectParams
                { goType := ty, content := { Namespace := ns, Name := name, spec := body } })] }⟩ := by
    simp only [keyOf] at hbody
    simp [DeleteIfExists, hk, hacc, clientGet, clientDelete, fakeReconciler, fakeClient, keyOf,
      hbody, LogForObject]
  rw [hfirst]
  refine ⟨rfl, by simp [keyOf], ?_, ?_, ?_⟩ <;>
    simp [DeleteIfExists, hk, clientGet, fakeReconciler, fakeClient, keyOf, IsNotFound,
      ReasonForError, errStoreNotFound]

/-- Witness for C7: the stored object is deleted. -/
theorem DeleteIfExists_twice_witness :
    configMap.goType.implementsObject = true ∧
    worldWithConfigMap.store (keyOf configMap.content) ≠ none ∧
    (DeleteIfExists (fakeReconciler selectorImmutable) configMap worldWithConfigMap).outcome
      = Outcome.returned none ∧
    (DeleteIfExists (fakeReconciler selectorImmutable) configMap worldWithConfigMap).world.store
      (keyOf configMap.content) = none :=
  ⟨rfl, by decide,
    (DeleteIfExists_twice selectorImmutable configMap worldWithConfigMap rfl (by decide)).1,
    (DeleteIfExists_twice selectorImmutable configMap worldWithConfigMap rfl (by decide)).2.1⟩

/-- The state in which repeated calls have converged: the object has identity
metadata, the store holds exactly the object's body under its key, and the
mutation leaves the object as it is. -/
theorem CreateOrDelete_converged
    (accepts : List (String × String) → List (String × String) → Bool)
    (f : MutateFn) (o : Object) (w : World FakeStore)
    (hi : o.goType.implementsObject = true)
    (hstore : w.store (keyOf o.content) = some o.content.spec)
    (hfix : f o.content = (o.content, none)) :
    CreateOrDelete (fakeReconciler accepts) o f w
      = ⟨Outcome.returned (OperationResultNone, none), o,
          { w with calls := w.calls ++ [StoreCall.Get (keyOf o.content)] }⟩ := by
  obtain ⟨ty, ⟨ns, name, spec⟩⟩ := o
  have hk : ∀ c : ObjectContent, ObjectKeyFromObject { goType := ty, content := c }
      = Except.ok (keyOf c) := fun c => ObjectKeyFromObject_of_implements _ hi
  have hacc : ∀ c : ObjectContent, getAccessorOrDie { goType := ty, content := c }
      = Outcome.returned { goType := ty, content := c } :=
    fun c => getAccessorOrDie_of_implements _ hi
  simp only [keyOf] at hstore
  simp [CreateOrDelete, hacc, CreateOrUpdate, hk, clientGet, fakeReconciler, fakeClient, keyOf,
    hstore, mutate, hfix, isInvalidError]

theorem CreateOrUpdate_written_converged
    (accepts : List (String × String) → List (String × String) → Bool)
    (f : MutateFn) (obj : Object) (w : World FakeStore) (op : OperationResult)
    (hf : IdempotentMutation f)
    (hup : (CreateOrUpdate (fakeClient accepts) obj f w).1 = (op, none))
    (hop : op ≠ OperationResultNone) :
    (CreateOrUpdate (fakeClient accepts) obj f w).2.1.goType.implementsObject = true ∧
    (CreateOrUpdate (fakeClient accepts) obj f w).2.2.store
        (keyOf (CreateOrUpdate (fakeClient accepts) obj f w).2.1.content)
      = some (CreateOrUpdate (fakeClient accepts) obj f w).2.1.content.spec ∧
    f (CreateOrUpdate (fakeClient accepts) obj f w).2.1.content
      = ((CreateOrUpdate (fakeClient accepts) obj f w).2.1.content, none) := by
  cases hi : obj.goType.implementsObject with
  | false =>
      rw [CreateOrUpdate_of_not_implements _ _ _ _ hi] at hup
      simp at hup
  | true =>
      obtain ⟨ty, ⟨ns, name, spec⟩⟩ := obj
      have hk : ∀ c : ObjectContent, ObjectKeyFromObject { goType := ty, content := c }
          = Except.ok (keyOf c) := fun c => ObjectKeyFromObject_of_implements _ hi
      have hkk : ∀ sp : List (String × String),
          keyOf { Namespace := ns, Name := name, spec := sp } = { Namespace := ns, Name := name } :=
        fun _ => rfl
      cases hs : w.store { Namespace := ns, Name := name } with
      | none =>
          rcases hfr : f { Namespace := ns, Name := name, spec := spec } with
            ⟨⟨ns1, name1, spec1⟩, _ | e1⟩
          · have hfix := hf _ _ hfr
            by_cases hkey : ns = ns1 ∧ name = name1
            · obtain ⟨rfl, rfl⟩ := hkey
              simp [CreateOrUpdate, hk, hkk, clientGet, clientCreate, fakeClient, hs, mutate,
                hfr, IsNotFound, ReasonForError, errStoreNotFound, hfix]
              exact hi
            · simp [CreateOrUpdate, hk, hkk, clientGet, fakeClient, hs, mutate, hfr, IsNotFound,
                ReasonForError, errStoreNotFound, keyOf, hkey] at hup
          · simp [CreateOrUpdate, hk, hkk, clientGet, fakeClient, hs, mutate, hfr, IsNotFound,
              ReasonForError, errStoreNotFound] at hup
      | some body =>
          rcases hfr : f { Namespace := ns, Name := name, spec := body } with
            ⟨⟨ns1, name1, spec1⟩, _ | e1⟩
          · have hfix := hf _ _ hfr
            by_cases hkey : ns = ns1 ∧ name = name1
            · obtain ⟨rfl, rfl⟩ := hkey
              by_cases heq : body = spec1
              · subst heq
                simp [CreateOrUpdate, hk, hkk, clientGet, fakeClient, hs, mutate, hfr] at hup
                exact absurd hup.symm hop
              · by_cases hacc : accepts body spec1 = true
                · simp [CreateOrUpdate, hk, hkk, clientGet, clientUpdate, fakeClient, hs,
                    mutate, hfr, heq, hacc, hfix]
                  exact hi
                · simp [CreateOrUpdate, hk, hkk, clientGet, clientUpdate, fakeClient, hs,
                    mutate, hfr, heq, hacc] at hup
            · simp [CreateOrUpdate, hk, hkk, clientGet, fakeClient, hs, mutate, hfr, keyOf,
                hkey] at hup
          · simp [CreateOrUpdate, hk, hkk, clientGet, fakeClient, hs, mutate, hfr] at hup

theorem writeCount_append_get (calls : List StoreCall) (key : ObjectKey) :
    writeCount (calls ++ [StoreCall.Get key]) = writeCount calls := by
  simp [writeCount, List.filter_append]

theorem repeatCreateOrDelete_converged
    (accepts : List (String × String) → List (String × String) → Bool)
    (f : MutateFn) (o : Object) (n : Nat) (w : World FakeStore)
    (hi : o.goType.implementsObject = true)
    (hstore : w.store (keyOf o.content) = some o.content.spec)
    (hfix : f o.content = (o.content, none)) :
    (repeatCreateOrDelete (fakeReconciler accepts) f n o w).1 = o ∧
    (repeatCreateOrDelete (fakeReconciler accepts) f n o w).2.store = w.store ∧
    (repeatCreateOrDelete (fakeReconciler accepts) f n o w).2.logs = w.logs ∧
    writeCount (repeatCreateOrDelete (fakeReconciler accepts) f n o w).2.calls
      = writeCount w.calls := by
  induction n generalizing w with
  | zero => exact ⟨rfl, rfl, rfl, rfl⟩
  | succ n ih =>
      have hstep := CreateOrDelete_converged accepts f o w hi hstore hfix
      simp only [repeatCreateOrDelete, hstep]
      obtain ⟨h1, h2, h3, h4⟩ :=
        ih { w with calls := w.calls ++ [StoreCall.Get (keyOf o.content)] } hstore
      exact ⟨h1, h2, h3, by rw [h4]; exact writeCount_append_get _ _⟩

/-- C6 (as stated, refuted): with an idempotent mutation of an immutable entry,
the first call returns a result other than unchanged without error (the object
was deleted), and the next call, again without error, returns created and
writes to the store. -/
theorem CreateOrDelete_recreates_after_delete :
    IdempotentMutation setSelectorB ∧
    (CreateOrDelete (fakeReconciler selectorImmutable) configMap setSelectorB
      worldWithConfigMap).outcome = Outcome.returned (OperationResultUpdated, none) ∧
    OperationResultUpdated ≠ OperationResultNone ∧
    (CreateOrDelete (fakeReconciler selectorImmutable)
      (repeatCreateOrDelete (fakeReconciler selectorImmutable) setSelectorB 1 configMap
        worldWithConfigMap).1 setSelectorB
      (repeatCreateOrDelete (fakeReconciler selectorImmutable) setSelectorB 1 configMap
        worldWithConfigMap).2).outcome = Outcome.returned (OperationResultCreated, none) ∧
    OperationResultCreated ≠ OperationResultNone ∧
    writeCount (CreateOrDelete (fakeReconciler selectorImmutable)
      (repeatCreateOrDelete (fakeReconciler selectorImmutable) setSelectorB 1 configMap
        worldWithConfigMap).1 setSelectorB
      (repeatCreateOrDelete (fakeReconciler selectorImmutable) setSelectorB 1 configMap
        worldWithConfigMap).2).world.calls
      = writeCount (repeatCreateOrDelete (fakeReconciler selectorImmutable) setSelectorB 1
          configMap worldWithConfigMap).2.calls + 1 := by
  refine ⟨?_, by decide, by decide, by decide, by decide, by decide⟩
  intro c c1 h
  simp only [setSelectorB, Prod.mk.injEq, and_true] at h
  subst h
  rfl

/-- C6 (amended): against a store that keeps its contract and with an
idempotent mutation, once a call's upsert has written the object (the upsert
returned created or updated without error), every later call in the sequence
returns unchanged with a nil error, leaves the store as it is, issues no write
and logs nothing. -/
theorem CreateOrDelete_converges_after_write
    (accepts : List (String × String) → List (String × String) → Bool)
    (f : MutateFn) (obj : Object) (w : World FakeStore) (op : OperationResult)
    (hf : IdempotentMutation f)
    (hup : (CreateOrUpdate (fakeClient accepts) obj f w).1 = (op, none))
    (hop : op ≠ OperationResultNone) (n : Nat) :
    (CreateOrDelete (fakeReconciler accepts) obj f w).outcome = Outcome.returned (op, none) ∧
    (CreateOrDelete (fakeReconciler accepts)
      (repeatCreateOrDelete (fakeReconciler accepts) f (n + 1) obj w).1 f
      (repeatCreateOrDelete (fakeReconciler accepts) f (n + 1) obj w).2).outcome
      = Outcome.returned (OperationResultNone, none) ∧
    (CreateOrDelete (fakeReconciler accepts)
      (repeatCreateOrDelete (fakeReconciler accepts) f (n + 1) obj w).1 f
      (repeatCreateOrDelete (fakeReconciler accepts) f (n + 1) obj w).2).world.store
      = (repeatCreateOrDelete (fakeReconciler accepts) f (n + 1) obj w).2.store ∧
    writeCount (CreateOrDelete (fakeReconciler accepts)
      (repeatCreateOrDelete (fakeReconciler accepts) f (n + 1) obj w).1 f
      (repeatCreateOrDelete (fakeReconciler accepts) f (n + 1) obj w).2).world.calls
      = writeCount (repeatCreateOrDelete (fakeReconciler accepts) f (n + 1) obj w).2.calls ∧
    (CreateOrDelete (fakeReconciler accepts)
      (repeatCreateOrDelete (fakeReconciler accepts) f (n + 1) obj w).1 f
      (repeatCreateOrDelete (fakeReconciler accepts) f (n + 1) obj w).2).world.logs
      = (repeatCreateOrDelete (fakeReconciler accepts) f (n + 1) obj w).2.logs := by
  obtain ⟨hi1, hstore, hfix⟩ := CreateOrUpdate_written_converged accepts f obj w op hf hup hop
  have hi : obj.goType.implementsObject = true := by
    rw [← (CreateOrUpdate_frame (fakeClient accepts) obj f w).1]; exact hi1
  have hop1 : (CreateOrUpdate (fakeClient accepts) obj f w).1.1 = op := by rw [hup]
  have herr : (CreateOrUpdate (fakeClient accepts) obj f w).1.2 = none := by rw [hup]
  have hfirst : CreateOrDelete (fakeReconciler accepts) obj f w
      = ⟨Outcome.returned (op, none), (CreateOrUpdate (fakeClient accepts) obj f w).2.1,
          LogForObject "Updated" (CreateOrUpdate (fakeClient accepts) obj f w).2.1 []
            (CreateOrUpdate (fakeClient accepts) obj f w).2.2⟩ := by
    simp [CreateOrDelete, getAccessorOrDie_of_implements obj hi, fakeReconciler, herr, hop1,
      hop, isInvalidError]
  have hstore1 : (LogForObject "Updated" (CreateOrUpdate (fakeClient accepts) obj f w).2.1 []
      (CreateOrUpdate (fakeClient accepts) obj f w).2.2).store
        (keyOf (CreateOrUpdate (fakeClient accepts) obj f w).2.1.content)
      = some (CreateOrUpdate (fakeClient accepts) obj f w).2.1.content.spec := hstore
  obtain ⟨h1, h2, -, -⟩ := repeatCreateOrDelete_converged accepts f
    (CreateOrUpdate (fakeClient accepts) obj f w).2.1 n _ hi1 hstore1 hfix
  have hrep : repeatCreateOrDelete (fakeReconciler accepts) f (n + 1) obj w
      = repeatCreateOrDelete (fakeReconciler accepts) f n
          (CreateOrUpdate (fakeClient accepts) obj f w).2.1
          (LogForObject "Updated" (CreateOrUpdate (fakeClient accepts) obj f w).2.1 []
            (CreateOrUpdate (fakeClient accepts) obj f w).2.2) := by
    simp only [repeatCreateOrDelete, hfirst]
  refine ⟨by rw [hfirst], ?_⟩
  rw [hrep, h1]
  have hstore2 : (repeatCreateOrDelete (fakeReconciler accepts) f n
      (CreateOrUpdate (fakeClient accepts) obj f w).2.1
      (LogForObject "Updated" (CreateOrUpdate (fakeClient accepts) obj f w).2.1 []
        (CreateOrUpdate (fakeClient accepts) obj f w).2.2)).2.store
        (keyOf (CreateOrUpdate (fakeClient accepts) obj f w).2.1.content)
      = some (CreateOrUpdate (fakeClient accepts) obj f w).2.1.content.spec := by
    rw [h2]; exact hstore1
  rw [CreateOrDelete_converged accepts f _ _ hi1 hstore2 hfix]
  exact ⟨rfl, rfl, writeCount_append_get _ _, rfl⟩

/-- Witness for C6 (amended): an update of a mutable entry, then three more calls. -/
theorem CreateOrDelete_converges_after_write_witness :
    IdempotentMutation setMtu ∧
    (CreateOrUpdate (fakeClient selectorImmutable) configMap setMtu worldWithConfigMap).1
      = (OperationResultUpdated, none) ∧
    OperationResultUpdated ≠ OperationResultNone ∧
    (CreateOrDelete (fakeReconciler selectorImmutable)
      (repeatCreateOrDelete (fakeReconciler selectorImmutable) setMtu (2 + 1) configMap
        worldWithConfigMap).1 setMtu
      (repeatCreateOrDelete (fakeReconciler selectorImmutable) setMtu (2 + 1) configMap
        worldWithConfigMap).2).outcome = Outcome.returned (OperationResultNone, none) :=
  ⟨fun c c1 h => by
      simp only [setMtu, Prod.mk.injEq, and_true] at h
      subst h
      rfl,
    by decide, by decide,
    (CreateOrDelete_converges_after_write selectorImmutable setMtu configMap worldWithConfigMap
      OperationResultUpdated
      (fun c c1 h => by
        simp only [setMtu, Prod.mk.injEq, and_true] at h
        subst h
        rfl)
      (by decide) (by decide) 2).2.1⟩

end OvnOperator
